import Mathlib

/-!
A shallow embedding of the `rust-skeptic` documentation-test generator
(`src/skeptic/lib.rs`).  Text is modelled as `List Char`; machine strings
from the Rust code are injected through `String.data`.  File systems are
modelled as explicit finite maps, and the external markdown tokenizer is
modelled as a map from paths to the event streams it would produce.
-/

abbrev Str := List Char

instance {ε α : Type} [DecidableEq ε] [DecidableEq α] : DecidableEq (Except ε α)
  | .ok a, .ok b =>
    if h : a = b then isTrue (by rw [h])
    else isFalse (by intro he; cases he; exact h rfl)
  | .ok _, .error _ => isFalse (by intro h; cases h)
  | .error _, .ok _ => isFalse (by intro h; cases h)
  | .error a, .error b =>
    if h : a = b then isTrue (by rw [h])
    else isFalse (by intro he; cases he; exact h rfl)

/-- Unicode `White_Space` characters, as used by Rust's `str::trim_left`
(`char::is_whitespace`). -/
def isRustWhitespace (c : Char) : Bool :=
  decide (c.toNat = 0x9 ∨ c.toNat = 0xA ∨ c.toNat = 0xB ∨ c.toNat = 0xC ∨
    c.toNat = 0xD ∨ c.toNat = 0x20 ∨ c.toNat = 0x85 ∨ c.toNat = 0xA0 ∨
    c.toNat = 0x1680 ∨ (0x2000 ≤ c.toNat ∧ c.toNat ≤ 0x200A) ∨
    c.toNat = 0x2028 ∨ c.toNat = 0x2029 ∨ c.toNat = 0x202F ∨
    c.toNat = 0x205F ∨ c.toNat = 0x3000)

/-- Rust's `char::is_alphanumeric` (Unicode Alphabetic ∪ Nd ∪ Nl ∪ No),
modelled exactly on the Latin-1 range (code points up to U+00FF); code
points above U+00FF are conservatively treated as alphanumeric, which is
exact for the letters exercised in this development. -/
def isRustAlphanumeric (c : Char) : Bool :=
  decide ((0x30 ≤ c.toNat ∧ c.toNat ≤ 0x39) ∨ (0x41 ≤ c.toNat ∧ c.toNat ≤ 0x5A) ∨
    (0x61 ≤ c.toNat ∧ c.toNat ≤ 0x7A) ∨
    c.toNat = 0xAA ∨ c.toNat = 0xB2 ∨ c.toNat = 0xB3 ∨ c.toNat = 0xB5 ∨
    c.toNat = 0xB9 ∨ c.toNat = 0xBA ∨ (0xBC ≤ c.toNat ∧ c.toNat ≤ 0xBE) ∨
    (0xC0 ≤ c.toNat ∧ c.toNat ≤ 0xD6) ∨ (0xD8 ≤ c.toNat ∧ c.toNat ≤ 0xF6) ∨
    (0xF8 ≤ c.toNat ∧ c.toNat ≤ 0xFF) ∨ 0x100 ≤ c.toNat)

/-- Rust's `u8::to_ascii_lowercase` lifted to `char` (only ASCII `A`-`Z`
are folded; all other characters pass through). -/
def toAsciiLowerChar (c : Char) : Char :=
  if 0x41 ≤ c.toNat ∧ c.toNat ≤ 0x5A then Char.ofNat (c.toNat + 32) else c

/-- `fn to_lowercase(s: &str) -> String { s.to_ascii_lowercase() }`. -/
def to_lowercase (s : Str) : Str := s.map toAsciiLowerChar

/-- `fn sanitize_test_name(s: &str) -> String`: ASCII-lowercase the name,
then replace each character that is not (Unicode-)alphanumeric by `_`. -/
def sanitize_test_name (s : Str) : Str :=
  (to_lowercase s).map (fun c => if isRustAlphanumeric c then c else '_')

/-- `fn clean_omitted_line(line: &String) -> &str`: trim leading
whitespace; a bare `#\n` becomes `\n`; a `# `-led line loses that
two-character marker; anything else is returned unchanged. -/
def clean_omitted_line (line : Str) : Str :=
  let trimmed := line.dropWhile isRustWhitespace
  if trimmed = "#\n".data then trimmed.drop 1
  else if trimmed.take 2 = "# ".data then trimmed.drop 2
  else line

/-- `fn create_test_input(lines: &[String]) -> String`: concatenate the
omission-cleaned lines. -/
def create_test_input (lines : List Str) : Str :=
  (lines.map clean_omitted_line).flatten

/-- `str::split` on a character predicate: splits at every separator
character, keeping empty pieces, and yields at least one piece. -/
def splitChars (sep : Char → Bool) : Str → List Str
  | [] => [[]]
  | c :: rest =>
    match splitChars sep rest with
    | [] => [[]]
    | t :: ts => if sep c then [] :: t :: ts else (c :: t) :: ts

/-- The info-string tokenizer of `parse_code_block_info`: split on every
character that is not `_`, `-` or alphanumeric. -/
def tokenize (info : Str) : List Str :=
  splitChars (fun c => !(c = '_' || c = '-' || isRustAlphanumeric c)) info

/-- `struct CodeBlockInfo`. -/
structure CodeBlockInfo where
  is_rust : Bool
  should_panic : Bool
  ignore : Bool
  no_run : Bool
  is_old_template : Bool
  template : Option Str
deriving DecidableEq, Repr

/-- The accumulator of `parse_code_block_info`'s token loop. -/
structure ParseAcc where
  info : CodeBlockInfo
  seen_rust_tags : Bool
  seen_other_tags : Bool
deriving DecidableEq, Repr

/-- One iteration of `parse_code_block_info`'s `for token in tokens` loop. -/
def parseStep (acc : ParseAcc) (token : Str) : ParseAcc :=
  if token = [] then acc
  else if token = "rust".data then
    { acc with info := { acc.info with is_rust := true }, seen_rust_tags := true }
  else if token = "should_panic".data then
    { acc with info := { acc.info with should_panic := true }, seen_rust_tags := true }
  else if token = "ignore".data then
    { acc with info := { acc.info with ignore := true }, seen_rust_tags := true }
  else if token = "no_run".data then
    { acc with info := { acc.info with no_run := true }, seen_rust_tags := true }
  else if token = "skeptic-template".data then
    { acc with info := { acc.info with is_old_template := true }, seen_rust_tags := true }
  else if token.take 4 = "skt-".data then
    { acc with info := { acc.info with template := some (token.drop 4) }, seen_rust_tags := true }
  else
    { acc with seen_other_tags := true }

/-- The initial accumulator of `parse_code_block_info`: all flags are
clear. -/
def initParseAcc : ParseAcc :=
  ⟨⟨false, false, false, false, false, none⟩, false, false⟩

/-- `fn parse_code_block_info(info: &str) -> CodeBlockInfo`. -/
def parse_code_block_info (info : Str) : CodeBlockInfo :=
  let acc := (tokenize info).foldl parseStep initParseAcc
  { acc.info with
    is_rust := acc.info.is_rust && (!acc.seen_other_tags || acc.seen_rust_tags) }

/-- Decimal digit character, for `n < 10`. -/
def digitChar (n : Nat) : Char := Char.ofNat (0x30 + n)

/-- Decimal rendering of a natural number, accumulator style; the first
argument is structural fuel (any fuel at least the number renders it
fully). -/
def natDecimalAux : Nat → Nat → Str → Str
  | 0, _, acc => acc
  | fuel + 1, n, acc =>
    if n = 0 then acc else natDecimalAux fuel (n / 10) (digitChar (n % 10) :: acc)

/-- Decimal rendering of a natural number, as Rust's `format!("{}", n)`. -/
def natDecimal (n : Nat) : Str :=
  if n = 0 then ['0'] else natDecimalAux n n []

/-- `struct Test`. -/
structure Test where
  name : Str
  text : List Str
  ignore : Bool
  no_run : Bool
  should_panic : Bool
  template : Option Str
deriving DecidableEq, Repr

/-- The pulldown-cmark events `extract_tests_from_file` inspects; the
external tokenizer is out of scope, so documents are modelled directly as
streams of these events.  `other` stands for every event kind the source
ignores. -/
inductive Event where
  | startCodeBlock (info : Str)
  | textEv (s : Str)
  | endCodeBlock (info : Str)
  | other
deriving DecidableEq, Repr

/-- The name-generator `TestNameGen { root, count }` produces
`format!("{}_{}", root, count)`. -/
def testName (root : Str) (count : Nat) : Str :=
  root ++ '_' :: natDecimal count

/-- The mutable state of `extract_tests_from_file`'s event loop:
collected tests, the legacy template, the optional text buffer, and the
name generator's counter. -/
structure ExtractState where
  tests : List Test
  old_template : Option Str
  buffer : Option (List Str)
  count : Nat
deriving DecidableEq, Repr

/-- One iteration of `extract_tests_from_file`'s `for event in parser`
loop (the `root` is the sanitized file stem held by `TestNameGen`). -/
def extractStep (root : Str) (st : ExtractState) (e : Event) : ExtractState :=
  match e with
  | .startCodeBlock info =>
    if (parse_code_block_info info).is_rust then { st with buffer := some [] } else st
  | .textEv s =>
    match st.buffer with
    | some buf => { st with buffer := some (buf ++ [s]) }
    | none => st
  | .endCodeBlock info =>
    let cbi := parse_code_block_info info
    match st.buffer with
    | some buf =>
      if cbi.is_old_template then
        { st with old_template := some buf.flatten, buffer := none }
      else
        { st with
          tests := st.tests ++
            [⟨testName root st.count, buf, cbi.ignore, cbi.no_run, cbi.should_panic,
              cbi.template⟩],
          buffer := none, count := st.count + 1 }
    | none => st
  | .other => st

/-- `Path::file_name`: the part of the path after the last `/`. -/
def pathFileName (p : Str) : Str :=
  (p.reverse.takeWhile (· ≠ '/')).reverse

/-- `Path::file_stem` on a non-empty file name: the whole name when it
contains no `.` beyond a possible leading one, else the part before the
last `.`. -/
def fileStemOfName (n : Str) : Str :=
  let r := n.reverse
  let afterDot := r.takeWhile (· ≠ '.')
  if afterDot.length = r.length then n
  else
    let stemR := r.drop (afterDot.length + 1)
    if stemR = [] then n else stemR.reverse

/-- `Path::extension` on a file name: the part after the last `.`, absent
when there is no `.` beyond a possible leading one. -/
def extensionOfName (n : Str) : Option Str :=
  let r := n.reverse
  let afterDot := r.takeWhile (· ≠ '.')
  if afterDot.length = r.length then none
  else if r.drop (afterDot.length + 1) = [] then none
  else some afterDot.reverse

/-- `path.file_stem` of a document path, as used by `TestNameGen::new`. -/
def file_stem (p : Str) : Str := fileStemOfName (pathFileName p)

/-- `struct DocTest`; the template store is an insert-at-front
association list, so `List.lookup` realizes `HashMap`'s last-insert-wins
reads. -/
structure DocTest where
  path : Str
  old_template : Option Str
  tests : List Test
  templates : List (Str × Str)
deriving DecidableEq, Repr

/-- The state of `load_templates`'s event loop. -/
structure TemplState where
  map : List (Str × Str)
  buffer : Option (List Str)
deriving DecidableEq, Repr

/-- One iteration of `load_templates`'s `for event in parser` loop. -/
def loadStep (st : TemplState) (e : Event) : TemplState :=
  match e with
  | .startCodeBlock info =>
    if (parse_code_block_info info).is_rust then { st with buffer := some [] } else st
  | .textEv s =>
    match st.buffer with
    | some buf => { st with buffer := some (buf ++ [s]) }
    | none => st
  | .endCodeBlock info =>
    let cbi := parse_code_block_info info
    match st.buffer with
    | some buf =>
      match cbi.template with
      | some t => { st with map := (t, buf.flatten) :: st.map, buffer := none }
      | none => { st with buffer := none }
    | none => st
  | .other => st

/-- A file system of already-tokenized markdown documents: each path maps
to the event stream the external parser yields for it, `none` meaning the
file does not exist. -/
abbrev DocFs := Str → Option (List Event)

/-- `fn load_templates(path: &Path)`: read the sibling
`<file_name>.skt.md` document (paths are modelled without directories, so
the sibling path is the document path with the suffix appended); an
absent sibling yields an empty store. -/
def load_templates (fs : DocFs) (path : Str) : List (Str × Str) :=
  match fs (path ++ ".skt.md".data) with
  | none => []
  | some events => (events.foldl loadStep ⟨[], none⟩).map

/-- `fn extract_tests_from_file(path: &Path)`; `Except.error` is the
propagated I/O error when the document cannot be read. -/
def extract_tests_from_file (fs : DocFs) (path : Str) : Except Unit DocTest :=
  match fs path with
  | none => .error ()
  | some events =>
    let root := sanitize_test_name (file_stem path)
    let final := events.foldl (extractStep root) ⟨[], none, none, 0⟩
    .ok ⟨path, final.old_template, final.tests, load_templates fs path⟩

/-- `fn extract_tests(config: &Config)`: process the configured documents
in order (document paths stand for `root_dir.join(doc)`). -/
def extract_tests (fs : DocFs) : List Str → Except Unit (List DocTest)
  | [] => .ok []
  | d :: rest =>
    match extract_tests_from_file fs d with
    | .error e => .error e
    | .ok dt =>
      match extract_tests fs rest with
      | .error e => .error e
      | .ok r => .ok (dt :: r)

/-- `fn create_test_runner(...)`: the generated source text for one test
(`writeln!` into an in-memory buffer cannot fail, so this is a pure
string). -/
def create_test_runner (out_dir : Str) (template : Option Str) (t : Test) : Str :=
  let template := template.getD "\x7b\x7d".data
  let test_text := create_test_input t.text
  (if t.ignore then "#[ignore]\n".data else []) ++
  (if t.should_panic then "#[should_panic]\n".data else []) ++
  "#[test] fn ".data ++ t.name ++ "() \x7b\n".data ++
  "    let s = &format!(r####\"\n".data ++ template ++
    "\"####, r####\"".data ++ test_text ++ "\"####);\n".data ++
  (if t.no_run then
    "    skeptic::rt::compile_test(r#\"".data ++ out_dir ++ "\"#, s);\n".data
   else
    "    skeptic::rt::run_test(r#\"".data ++ out_dir ++ "\"#, s);\n".data) ++
  "\x7d\n".data ++ "\n".data

/-- The inner per-test loop of `fn emit_tests`: resolve each test's
template (an explicit reference must be present in the document's store,
else the `.expect` panic — modelled as `Except.error` with the panic
message) and append its runner text. -/
def emit_doc_tests (out_dir : Str) (dt : DocTest) : List Test → Except Str Str
  | [] => .ok []
  | t :: rest =>
    match t.template with
    | some nm =>
      match dt.templates.lookup nm with
      | none => .error ("template ".data ++ nm ++ " not found for ".data ++ dt.path)
      | some tpl =>
        match emit_doc_tests out_dir dt rest with
        | .error e => .error e
        | .ok r => .ok (create_test_runner out_dir (some tpl) t ++ r)
    | none =>
      match emit_doc_tests out_dir dt rest with
      | .error e => .error e
      | .ok r => .ok (create_test_runner out_dir dt.old_template t ++ r)

/-- The outer per-document loop of `fn emit_tests`. -/
def emit_docs (out_dir : Str) : List DocTest → Except Str Str
  | [] => .ok []
  | dt :: rest =>
    match emit_doc_tests out_dir dt dt.tests with
    | .error e => .error e
    | .ok s =>
      match emit_docs out_dir rest with
      | .error e => .error e
      | .ok r => .ok (s ++ r)

/-- The full artifact content `fn emit_tests` accumulates before writing:
the fixed `extern crate skeptic;` preamble followed by every document's
every runner. -/
def emit_content (out_dir : Str) (suite : List DocTest) : Except Str Str :=
  match emit_docs out_dir suite with
  | .error e => .error e
  | .ok body => .ok ("extern crate skeptic;\n".data ++ body)

/-- A writable file system for the generated artifact: stored files plus
the set of paths whose reads fail with an error other than `NotFound`. -/
structure OutFs where
  files : List (Str × Str)
  unreadable : List Str
deriving DecidableEq, Repr

/-- `fn write_if_contents_changed`: compare any pre-existing file's
content with the new content and skip the write when identical; a missing
file is not an error; any other read error propagates (second component
`.error`) and nothing is written. -/
def write_if_contents_changed (fs : OutFs) (name contents : Str) :
    OutFs × Except Unit Unit :=
  if fs.unreadable.contains name then (fs, .error ())
  else
    match fs.files.lookup name with
    | some cur =>
      if cur = contents then (fs, .ok ())
      else ({ fs with files := (name, contents) :: fs.files }, .ok ())
    | none => ({ fs with files := (name, contents) :: fs.files }, .ok ())

/-- `fn emit_tests(config, suite)` end to end: build the artifact content
and only then write it; a missing named template panics first (returned
as `some message`) and the file system is left untouched. -/
def emit_tests (fs : OutFs) (out_dir out_file : Str) (suite : List DocTest) :
    OutFs × Option Str :=
  match emit_content out_dir suite with
  | .error msg => (fs, some msg)
  | .ok out => ((write_if_contents_changed fs out_file out).1, none)

/-- The first test of a document whose explicit template reference is
absent from the document's store, if any (traversal order of
`emit_tests`). -/
def findMissingTest (dt : DocTest) : List Test → Option Str
  | [] => none
  | t :: rest =>
    match t.template with
    | some nm =>
      match dt.templates.lookup nm with
      | none => some nm
      | some _ => findMissingTest dt rest
    | none => findMissingTest dt rest

/-- The first unresolved template reference of a suite, with its
document's path (traversal order of `emit_tests`). -/
def findMissing : List DocTest → Option (Str × Str)
  | [] => none
  | dt :: rest =>
    match findMissingTest dt dt.tests with
    | some nm => some (dt.path, nm)
    | none => findMissing rest

/-- `str::rsplitn(2, '-').nth(1)`: the part of the string before its last
`-`, absent when the string contains no `-`. -/
def beforeLastDash (s : Str) : Option Str :=
  let r := s.reverse
  let afterDash := r.takeWhile (· ≠ '-')
  if afterDash.length = r.length then none
  else some ((r.drop (afterDash.length + 1)).reverse)

/-- The body of `fn compile_test_case`'s dependency loop for one file
name found in the `deps` directory: a `.rlib` whose stem contains a `-`
yields `--extern <stem-before-last-dash minus its 3-character lib
marker>=<file>`; the byte slice `&libname[3..]` panics (`Except.error`)
when that part is shorter than 3 characters; everything else is skipped
(an empty name has no stem). -/
def compileExternStep (f : Str) : Except Unit (Option (Str × Str)) :=
  if f = [] then .ok none
  else match extensionOfName f with
  | some ext =>
    if ext = "rlib".data then
      match beforeLastDash (fileStemOfName f) with
      | some libname =>
        if libname.length < 3 then .error ()
        else .ok (some (libname.drop 3, f))
      | none => .ok none
    else .ok none
  | none => .ok none

/-- The dependency-registration loop of `fn compile_test_case`, over the
file names found in the `deps` directory. -/
def compile_externs : List Str → Except Unit (List (Str × Str))
  | [] => .ok []
  | f :: rest => do
    let entry ← compileExternStep f
    let r ← compile_externs rest
    .ok (match entry with | some e => e :: r | none => r)

/-- The observable behaviour of `fn generate_doc_tests` at generation
time: the emitted `cargo:rerun-if-changed` directives, the extracted
suite, and the artifact content handed to the writer (`none` on the
empty-input early return or when extraction's `.unwrap()` panics). -/
structure GenOutput where
  directives : List Str
  suite : Except Unit (List DocTest)
  artifact : Option (Except Str Str)
deriving Repr

/-- The body of `fn generate_doc_tests` after the `.skt.md` filter: emit
two rerun directives per remaining document, then run extraction and
emission over the remaining documents. -/
def generateFiltered (fs : DocFs) (out_dir : Str) (docs' : List Str) : GenOutput :=
  let directives := (docs'.map (fun d =>
    ["cargo:rerun-if-changed=".data ++ d,
     "cargo:rerun-if-changed=".data ++ d ++ ".skt.md".data])).flatten
  match extract_tests fs docs' with
  | .error _ => ⟨directives, .error (), none⟩
  | .ok suite => ⟨directives, .ok suite, some (emit_content out_dir suite)⟩

/-- `fn generate_doc_tests`: return early on an empty list, drop every
entry ending in `.skt.md`, then process the remaining documents. -/
def generate_doc_tests (fs : DocFs) (out_dir : Str) (docs : List Str) : GenOutput :=
  if docs.isEmpty then ⟨[], .ok [], none⟩
  else generateFiltered fs out_dir (docs.filter (fun d => !(".skt.md".data.isSuffixOf d)))

/-- Modelled from the spec: the line-omission cleaning rule stated in
§4.4 word for word (trim leading whitespace; a line that is exactly the
marker followed by a newline becomes just the newline; a trimmed line
starting with marker-and-space loses that two-character lead; every other
line passes through unchanged). -/
def cleanSpecLine (line : Str) : Str :=
  let trimmed := line.dropWhile isRustWhitespace
  if trimmed = "#\n".data then "\n".data
  else if trimmed.take 2 = "# ".data then trimmed.drop 2
  else line

/-- A token that `parse_code_block_info` recognizes with a dedicated
match arm (these are exactly the tokens that set `seen_rust_tags`). -/
def isRecognizedToken (t : Str) : Bool :=
  decide (t = "rust".data) || decide (t = "should_panic".data) ||
  decide (t = "ignore".data) || decide (t = "no_run".data) ||
  decide (t = "skeptic-template".data) || decide (t.take 4 = "skt-".data)

/-- Modelled from the spec: the sample-control tags the claim lists for
the runnable-sample policy (`should_panic`, `ignore`, `no_run`, the
legacy-template marker, a template reference) — the sample marker itself
is not among them. -/
def isControlToken (t : Str) : Bool :=
  decide (t = "should_panic".data) || decide (t = "ignore".data) ||
  decide (t = "no_run".data) || decide (t = "skeptic-template".data) ||
  decide (t.take 4 = "skt-".data)

/-- Modelled from the spec: the claimed runnable-sample policy — the
sample marker is present AND (no unrecognized token occurs among the
(nonempty) tokens OR at least one recognized sample-control tag occurs). -/
def claimRunnable (info : Str) : Bool :=
  let toks := (tokenize info).filter (fun t => !t.isEmpty)
  toks.contains "rust".data &&
    (toks.all (fun t => decide (t = "rust".data) || isControlToken t) ||
     toks.any isControlToken)

/-- Left-biased choice on options (`some` on the left wins). -/
def orOpt (a b : Option Str) : Option Str :=
  match a with
  | some v => some v
  | none => b

/-- The reference carried by the last `skt-` token of a token list, if
any (later tokens win). -/
def lastSktRef : List Str → Option Str
  | [] => none
  | t :: rest =>
    orOpt (lastSktRef rest)
      (if t.take 4 = "skt-".data then some (t.drop 4) else none)

/-- ASCII decimal digit. -/
def isAsciiDigitChar (c : Char) : Bool :=
  decide (0x30 ≤ c.toNat ∧ c.toNat ≤ 0x39)

/-- A character allowed by the class `[a-z0-9_]`. -/
def isLowerNumUnd (c : Char) : Bool :=
  decide ((0x61 ≤ c.toNat ∧ c.toNat ≤ 0x7A) ∨ (0x30 ≤ c.toNat ∧ c.toNat ≤ 0x39) ∨
    c = '_')

/-- Modelled from the spec: the test-name pattern `^[a-z0-9_]+_[0-9]+$`
(a nonempty `[a-z0-9_]` run, an underscore, a nonempty digit run) —
checked from the right: a nonempty maximal trailing digit run, preceded
by an underscore, preceded by a nonempty `[a-z0-9_]` run. -/
def matchesTestNamePattern (l : Str) : Bool :=
  !(l.reverse.takeWhile isAsciiDigitChar).isEmpty &&
  decide ((l.reverse.drop (l.reverse.takeWhile isAsciiDigitChar).length).head? =
    some '_') &&
  !((l.reverse.drop (l.reverse.takeWhile isAsciiDigitChar).length).drop 1).isEmpty &&
  ((l.reverse.drop (l.reverse.takeWhile isAsciiDigitChar).length).drop 1).all
    isLowerNumUnd

/-- The dependency entry `compile_test_case` registers for a single
`deps` file name, when it registers one. -/
def externEntrySpec (f : Str) : Option (Str × Str) :=
  match extensionOfName f with
  | some ext =>
    if ext = "rlib".data then
      match beforeLastDash (fileStemOfName f) with
      | some libname => some (libname.drop 3, f)
      | none => none
    else none
  | none => none

/-- A `deps` file name on which `compile_test_case`'s `&libname[3..]`
slice panics: an `rlib` whose stem's part before the last `-` is shorter
than three characters. -/
def rlibPanics (f : Str) : Bool :=
  match extensionOfName f with
  | some ext =>
    decide (ext = "rlib".data) &&
      (match beforeLastDash (fileStemOfName f) with
       | some libname => decide (libname.length < 3)
       | none => false)
  | none => false

/-- A well-formed markdown item, used to build the well-nested event
streams the external tokenizer produces: a fenced code block with its
info string and text fragments, or any other (ignored) event. -/
inductive MdItem where
  | codeBlock (info : Str) (texts : List Str)
  | prose
deriving DecidableEq, Repr

/-- The event stream of one markdown item. -/
def eventsOfItem : MdItem → List Event
  | .codeBlock info texts =>
    .startCodeBlock info :: texts.map Event.textEv ++ [.endCodeBlock info]
  | .prose => [.other]

/-- The event stream of a well-formed document. -/
def eventsOf (items : List MdItem) : List Event :=
  (items.map eventsOfItem).flatten

/-- A runnable sample block that is not a legacy template — the blocks
that become `Test` entries. -/
def isRunnableNonTemplate : MdItem → Bool
  | .codeBlock info _ =>
    (parse_code_block_info info).is_rust && !(parse_code_block_info info).is_old_template
  | .prose => false

/-- The text fragments of a markdown item (empty for non-code items). -/
def mdTexts : MdItem → List Str
  | .codeBlock _ texts => texts
  | .prose => []

/-- The `Test` entries extraction is expected to produce for a document's
items, starting the name counter at `c`. -/
def expectedTests (root : Str) (c : Nat) : List MdItem → List Test
  | [] => []
  | .prose :: rest => expectedTests root c rest
  | .codeBlock info texts :: rest =>
    let cbi := parse_code_block_info info
    if cbi.is_rust then
      if cbi.is_old_template then expectedTests root c rest
      else
        ⟨testName root c, texts, cbi.ignore, cbi.no_run, cbi.should_panic, cbi.template⟩ ::
          expectedTests root (c + 1) rest
    else expectedTests root c rest

/-- A concrete five-item document used to witness the extraction-naming
claim: two runnable samples, prose, a legacy-template block and a
non-rust block. -/
def wItems : List MdItem :=
  [MdItem.codeBlock "rust".data ["fn main() \x7b\x7d\n".data],
   MdItem.prose,
   MdItem.codeBlock "rust skeptic-template".data ["T".data],
   MdItem.codeBlock "python".data ["print".data],
   MdItem.codeBlock "rust,ignore".data ["assert!(true);\n".data]]

/-- A document file system holding exactly the witness document. -/
def wDocFs : DocFs :=
  fun p => if p = "guide.md".data then some (eventsOf wItems) else none

/-- The `DocTest` extraction yields for the witness document. -/
def wDocTest : DocTest :=
  ⟨"guide.md".data, some "T".data,
   [⟨"guide_0".data, ["fn main() \x7b\x7d\n".data], false, false, false, none⟩,
    ⟨"guide_1".data, ["assert!(true);\n".data], true, false, false, none⟩],
   []⟩

/-- A document file system holding one empty document, used to witness
the `.skt.md` input filtering claim. -/
def wFilterFs : DocFs :=
  fun p => if p = "a.md".data then some [] else none

/-! ## Theorems -/

/-- C2: line-omission cleaning refines the spec's rule word for word
(trim leading whitespace; a bare marker-newline line becomes just the
newline; a trimmed marker-space lead is dropped; everything else passes
through unchanged), and the four literal scenarios hold:
`"# use a::B;\n" ↦ "use a::B;\n"`, `"#\n" ↦ "\n"`,
`"    # let _ = x;\n" ↦ "let _ = x;\n"`, `"fn main() {\n"` unchanged. -/
theorem claim_C2_clean_omitted_line :
    (∀ line : Str, clean_omitted_line line = cleanSpecLine line) ∧
    clean_omitted_line "# use a::B;\n".data = "use a::B;\n".data ∧
    clean_omitted_line "#\n".data = "\n".data ∧
    clean_omitted_line "    # let _ = x;\n".data = "let _ = x;\n".data ∧
    clean_omitted_line "fn main() \x7b\n".data = "fn main() \x7b\n".data := by
  refine ⟨fun line => ?_, by decide, by decide, by decide, by decide⟩
  by_cases h : line.dropWhile isRustWhitespace = "#\n".data
  · simp [clean_omitted_line, cleanSpecLine, h]
  · simp [clean_omitted_line, cleanSpecLine, h]

/-- C3 counterexample: `clean_omitted_line` is not idempotent — on
`"# # x\n"` one application yields `"# x\n"`, a second one `"x\n"`. -/
theorem claim_C3_counterexample :
    ¬ (clean_omitted_line (clean_omitted_line "# # x\n".data) =
        clean_omitted_line "# # x\n".data) := by decide

/-- C3 (amended): `clean_omitted_line` is idempotent on every line whose
single-application output, after trimming leading whitespace, is neither
exactly `#\n` nor starts with the marker-and-space lead `# `; in general
idempotence fails (see the counterexample). -/
theorem claim_C3_idempotent_amended (line : Str)
    (h1 : (clean_omitted_line line).dropWhile isRustWhitespace ≠ "#\n".data)
    (h2 : ((clean_omitted_line line).dropWhile isRustWhitespace).take 2 ≠ "# ".data) :
    clean_omitted_line (clean_omitted_line line) = clean_omitted_line line := by
  generalize clean_omitted_line line = out at h1 h2 ⊢
  simp [clean_omitted_line, h1, h2]

/-- C3 witness: the amended idempotence at the concrete line
`"# use a::B;\n"`. -/
theorem claim_C3_idempotent_amended_witness :
    clean_omitted_line (clean_omitted_line "# use a::B;\n".data) =
      clean_omitted_line "# use a::B;\n".data :=
  claim_C3_idempotent_amended "# use a::B;\n".data (by decide) (by decide)

/-- C7: the output writer skips the write (leaving the file system
untouched) when a pre-existing file has byte-identical content, writes
when no file exists (absence is not an error), and propagates any other
read error without writing anything. -/
theorem claim_C7_write_if_contents_changed (fs : OutFs) (name contents : Str) :
    (fs.unreadable.contains name = false → fs.files.lookup name = some contents →
      write_if_contents_changed fs name contents = (fs, Except.ok ())) ∧
    (fs.unreadable.contains name = false → fs.files.lookup name = none →
      write_if_contents_changed fs name contents =
        ({ fs with files := (name, contents) :: fs.files }, Except.ok ())) ∧
    (fs.unreadable.contains name = true →
      write_if_contents_changed fs name contents = (fs, Except.error ())) := by
  refine ⟨fun h1 h2 => ?_, fun h1 h2 => ?_, fun h1 => ?_⟩
  · have hm : name ∉ fs.unreadable := by simpa using h1
    simp [write_if_contents_changed, hm, h2]
  · have hm : name ∉ fs.unreadable := by simpa using h1
    simp [write_if_contents_changed, hm, h2]
  · have hm : name ∈ fs.unreadable := by simpa using h1
    simp [write_if_contents_changed, hm]

/-- C7 witness: the three writer behaviours at concrete file systems —
identical content is skipped, a missing file is created, an unreadable
file propagates the error. -/
theorem claim_C7_write_if_contents_changed_witness :
    write_if_contents_changed ⟨[("o".data, "x".data)], []⟩ "o".data "x".data =
      (⟨[("o".data, "x".data)], []⟩, Except.ok ()) ∧
    write_if_contents_changed ⟨[], []⟩ "o".data "x".data =
      (⟨[("o".data, "x".data)], []⟩, Except.ok ()) ∧
    write_if_contents_changed ⟨[], ["o".data]⟩ "o".data "x".data =
      (⟨[], ["o".data]⟩, Except.error ()) :=
  ⟨(claim_C7_write_if_contents_changed _ _ _).1 (by decide) (by decide),
   (claim_C7_write_if_contents_changed _ _ _).2.1 (by decide) (by decide),
   (claim_C7_write_if_contents_changed _ _ _).2.2 (by decide)⟩

/-- C9 counterexample: for the dependency archive `libfoo-h123.rlib` the
claim predicts the registered library name `libfoo` (the base name with
its trailing `-`-separated segment stripped), but the code registers
`foo` — it additionally removes the three-character `lib` marker. -/
theorem claim_C9_counterexample :
    compile_externs ["libfoo-h123.rlib".data] =
      Except.ok [("foo".data, "libfoo-h123.rlib".data)] ∧
    beforeLastDash (fileStemOfName "libfoo-h123.rlib".data) = some "libfoo".data ∧
    ("foo".data : Str) ≠ "libfoo".data := by decide

/-- C9 (amended): for every `deps` listing in which no `rlib` stem's part
before its last `-` is shorter than three characters (which would panic
the byte slice), the registered dependencies are exactly: for each file
with extension `rlib` whose stem contains a `-`, the stem's part before
the last `-` with its first three characters (the `lib` marker) removed;
`rlib` files without a `-` in the stem are skipped, every other file is
ignored. -/
theorem claim_C9_compile_externs_amended (files : List Str)
    (h : ∀ f ∈ files, rlibPanics f = false) :
    compile_externs files = Except.ok (files.filterMap externEntrySpec) := by
  induction files with
  | nil => rfl
  | cons f rest ih =>
    have hf : rlibPanics f = false := h f (List.mem_cons_self _ _)
    have hrest := ih (fun g hg => h g (List.mem_cons_of_mem _ hg))
    have hstep : compileExternStep f = Except.ok (externEntrySpec f) := by
      by_cases hnil : f = []
      · subst hnil; decide
      · unfold compileExternStep externEntrySpec
        rw [if_neg hnil]
        unfold rlibPanics at hf
        cases hx : extensionOfName f with
        | none => simp [hx]
        | some ext =>
          rw [hx] at hf
          by_cases hrlib : ext = "rlib".data
          · cases hd : beforeLastDash (fileStemOfName f) with
            | none => simp [hx, hrlib, hd]
            | some lib =>
              rw [hd] at hf
              have hlen : ¬ lib.length < 3 := by
                simp [hrlib] at hf
                omega
              simp [hx, hrlib, hd, hlen]
          · simp [hx, hrlib]
    simp only [compile_externs, hstep, hrest, List.filterMap_cons]
    cases externEntrySpec f <;> rfl

/-- C9 witness: the amended registration rule at a concrete `deps`
listing. -/
theorem claim_C9_compile_externs_amended_witness :
    compile_externs ["libfoo-h123.rlib".data, "README.md".data, "plain.rlib".data,
        "libserde_json-abc12345.rlib".data] =
      Except.ok (["libfoo-h123.rlib".data, "README.md".data, "plain.rlib".data,
        "libserde_json-abc12345.rlib".data].filterMap externEntrySpec) :=
  claim_C9_compile_externs_amended _ (by decide)

/-- A token other than `rust` leaves the `is_rust` flag unchanged. -/
theorem parseStep_is_rust_of_ne (acc : ParseAcc) (t : Str) (h : t ≠ "rust".data) :
    (parseStep acc t).info.is_rust = acc.info.is_rust := by
  unfold parseStep
  split_ifs <;> first | rfl | exact absurd ‹t = "rust".data› h

/-- The `rust` token sets the `is_rust` flag. -/
theorem parseStep_is_rust_rust (acc : ParseAcc) :
    (parseStep acc "rust".data).info.is_rust = true := rfl

/-- A recognized token sets `seen_rust_tags`. -/
theorem parseStep_seen_of_rec (acc : ParseAcc) (t : Str)
    (h : isRecognizedToken t = true) :
    (parseStep acc t).seen_rust_tags = true := by
  unfold parseStep
  split_ifs with h1 h2 h3 h4 h5 h6 h7
  · subst h1; exact absurd h (by decide)
  · rfl
  · rfl
  · rfl
  · rfl
  · rfl
  · rfl
  · simp [isRecognizedToken, h2, h3, h4, h5, h6, h7] at h

/-- An unrecognized token leaves `seen_rust_tags` unchanged. -/
theorem parseStep_seen_of_not (acc : ParseAcc) (t : Str)
    (h : isRecognizedToken t = false) :
    (parseStep acc t).seen_rust_tags = acc.seen_rust_tags := by
  unfold parseStep
  split_ifs with h1 h2 h3 h4 h5 h6 h7
  · rfl
  · subst h2; exact absurd h (by decide)
  · subst h3; exact absurd h (by decide)
  · subst h4; exact absurd h (by decide)
  · subst h5; exact absurd h (by decide)
  · subst h6; exact absurd h (by decide)
  · simp [isRecognizedToken, h7] at h
  · rfl

/-- A token other than the legacy marker leaves `is_old_template`
unchanged. -/
theorem parseStep_old_of_ne (acc : ParseAcc) (t : Str)
    (h : t ≠ "skeptic-template".data) :
    (parseStep acc t).info.is_old_template = acc.info.is_old_template := by
  unfold parseStep
  split_ifs <;> first | rfl | exact absurd ‹t = "skeptic-template".data› h

/-- The legacy marker token sets `is_old_template`. -/
theorem parseStep_old_marker (acc : ParseAcc) :
    (parseStep acc "skeptic-template".data).info.is_old_template = true := rfl

/-- The `template` field after one token: an `skt-` token overwrites it,
every other token leaves it unchanged. -/
theorem parseStep_template_eq (acc : ParseAcc) (t : Str) :
    (parseStep acc t).info.template =
      (if t.take 4 = "skt-".data then some (t.drop 4) else acc.info.template) := by
  unfold parseStep
  split_ifs <;> first | rfl | (subst_vars; simp_all)

/-- The `is_rust` flag after the token loop: set iff it was set or the
`rust` token occurs. -/
theorem fold_is_rust (toks : List Str) (acc : ParseAcc) :
    ((toks.foldl parseStep acc).info.is_rust = true) ↔
      (acc.info.is_rust = true ∨ "rust".data ∈ toks) := by
  induction toks generalizing acc with
  | nil => simp
  | cons t rest ih =>
    rw [List.foldl_cons, ih]
    by_cases ht : t = "rust".data
    · subst ht
      constructor
      · rintro (h | h)
        · exact Or.inr (List.mem_cons_self _ _)
        · exact Or.inr (List.mem_cons_of_mem _ h)
      · intro _
        exact Or.inl (parseStep_is_rust_rust acc)
    · rw [parseStep_is_rust_of_ne acc t ht]
      constructor
      · rintro (h | h)
        · exact Or.inl h
        · exact Or.inr (List.mem_cons_of_mem _ h)
      · rintro (h | h)
        · exact Or.inl h
        · rcases List.mem_cons.mp h with h' | h'
          · exact absurd h'.symm ht
          · exact Or.inr h'

/-- `seen_rust_tags` after the token loop: set iff it was set or some
recognized token occurs. -/
theorem fold_seen_rust_tags (toks : List Str) (acc : ParseAcc) :
    ((toks.foldl parseStep acc).seen_rust_tags = true) ↔
      (acc.seen_rust_tags = true ∨ ∃ t ∈ toks, isRecognizedToken t = true) := by
  induction toks generalizing acc with
  | nil => simp
  | cons t rest ih =>
    rw [List.foldl_cons, ih]
    by_cases ht : isRecognizedToken t = true
    · rw [parseStep_seen_of_rec acc t ht]
      constructor
      · intro _
        exact Or.inr ⟨t, List.mem_cons_self _ _, ht⟩
      · intro _
        exact Or.inl rfl
    · have ht' : isRecognizedToken t = false := by simpa using ht
      rw [parseStep_seen_of_not acc t ht']
      constructor
      · rintro (h | ⟨x, hx, hxr⟩)
        · exact Or.inl h
        · exact Or.inr ⟨x, List.mem_cons_of_mem _ hx, hxr⟩
      · rintro (h | ⟨x, hx, hxr⟩)
        · exact Or.inl h
        · rcases List.mem_cons.mp hx with h' | h'
          · exact absurd (h' ▸ hxr) ht
          · exact Or.inr ⟨x, h', hxr⟩

/-- `is_old_template` after the token loop: set iff it was set or the
legacy marker occurs. -/
theorem fold_is_old_template (toks : List Str) (acc : ParseAcc) :
    ((toks.foldl parseStep acc).info.is_old_template = true) ↔
      (acc.info.is_old_template = true ∨ "skeptic-template".data ∈ toks) := by
  induction toks generalizing acc with
  | nil => simp
  | cons t rest ih =>
    rw [List.foldl_cons, ih]
    by_cases ht : t = "skeptic-template".data
    · subst ht
      constructor
      · rintro (h | h)
        · exact Or.inr (List.mem_cons_self _ _)
        · exact Or.inr (List.mem_cons_of_mem _ h)
      · intro _
        exact Or.inl (parseStep_old_marker acc)
    · rw [parseStep_old_of_ne acc t ht]
      constructor
      · rintro (h | h)
        · exact Or.inl h
        · exact Or.inr (List.mem_cons_of_mem _ h)
      · rintro (h | h)
        · exact Or.inl h
        · rcases List.mem_cons.mp h with h' | h'
          · exact absurd h'.symm ht
          · exact Or.inr h'

/-- The `template` field after the token loop: the last `skt-` token
wins, else the initial value stands. -/
theorem fold_template (toks : List Str) (acc : ParseAcc) :
    (toks.foldl parseStep acc).info.template =
      orOpt (lastSktRef toks) acc.info.template := by
  induction toks generalizing acc with
  | nil => simp [lastSktRef, orOpt]
  | cons t rest ih =>
    rw [List.foldl_cons, ih, parseStep_template_eq]
    cases h : lastSktRef rest <;>
      by_cases hskt : t.take 4 = "skt-".data <;>
        simp [lastSktRef, orOpt, h, hskt]

/-- The final `is_rust` of `parse_code_block_info`, in terms of the token
loop's accumulator. -/
theorem parse_code_block_info_is_rust (info : Str) :
    (parse_code_block_info info).is_rust =
      (((tokenize info).foldl parseStep initParseAcc).info.is_rust &&
        (!((tokenize info).foldl parseStep initParseAcc).seen_other_tags ||
          ((tokenize info).foldl parseStep initParseAcc).seen_rust_tags)) := rfl

/-- `parse_code_block_info` passes the loop's `is_old_template` through. -/
theorem parse_code_block_info_old (info : Str) :
    (parse_code_block_info info).is_old_template =
      ((tokenize info).foldl parseStep initParseAcc).info.is_old_template := rfl

/-- `parse_code_block_info` passes the loop's `template` through. -/
theorem parse_code_block_info_template (info : Str) :
    (parse_code_block_info info).template =
      ((tokenize info).foldl parseStep initParseAcc).info.template := rfl

/-- C1 counterexample: the info string `rust,foobar` carries the sample
marker together with only an unknown tag and no recognized sample-control
tag, so the claimed policy says it is not a runnable sample — but
`parse_code_block_info` marks it runnable (the marker itself counts as a
recognized tag, disarming the unknown-tag guard). -/
theorem claim_C1_counterexample :
    (parse_code_block_info "rust,foobar".data).is_rust = true ∧
    claimRunnable "rust,foobar".data = false := by decide

/-- C1 (amended): `parse_code_block_info` marks a block as a runnable
sample iff the info string contains the `rust` token — the unknown-tag
guard `!seen_other_tags || seen_rust_tags` is always satisfied when the
marker is present, because the marker itself sets `seen_rust_tags`. -/
theorem claim_C1_is_rust_amended (info : Str) :
    ((parse_code_block_info info).is_rust = true) ↔
      "rust".data ∈ tokenize info := by
  rw [parse_code_block_info_is_rust, Bool.and_eq_true]
  constructor
  · rintro ⟨h1, _⟩
    rcases (fold_is_rust _ _).mp h1 with h | h
    · simp [initParseAcc] at h
    · exact h
  · intro hmem
    refine ⟨(fold_is_rust _ _).mpr (Or.inr hmem), ?_⟩
    have h2 : ((tokenize info).foldl parseStep initParseAcc).seen_rust_tags = true :=
      (fold_seen_rust_tags _ _).mpr (Or.inr ⟨_, hmem, by decide⟩)
    rw [h2, Bool.or_true]

/-- C8 counterexample: the info string `skeptic-template skt-foo` yields
a `CodeBlockInfo` with the legacy-template flag set AND a named template
reference present, refuting the at-most-one invariant. -/
theorem claim_C8_counterexample :
    (parse_code_block_info "skeptic-template skt-foo".data).is_old_template = true ∧
    (parse_code_block_info "skeptic-template skt-foo".data).template ≠ none := by
  decide

/-- Text events extend the open buffer in order. -/
theorem fold_text_events (root : Str) (ts : List Str) (st : ExtractState) (b : List Str)
    (hb : st.buffer = some b) :
    (ts.map Event.textEv).foldl (extractStep root) st =
      { st with buffer := some (b ++ ts) } := by
  induction ts generalizing st b with
  | nil =>
    simp only [List.map_nil, List.foldl_nil, List.append_nil, ← hb]
  | cons t ts ih =>
    simp only [List.map_cons, List.foldl_cons]
    have hstep : extractStep root st (.textEv t) = { st with buffer := some (b ++ [t]) } := by
      simp [extractStep, hb]
    rw [hstep, ih { st with buffer := some (b ++ [t]) } (b ++ [t]) rfl]
    simp

/-- Text events outside a runnable block are ignored. -/
theorem fold_text_events_closed (root : Str) (ts : List Str) (st : ExtractState)
    (hb : st.buffer = none) :
    (ts.map Event.textEv).foldl (extractStep root) st = st := by
  induction ts with
  | nil => rfl
  | cons t ts ih =>
    simp only [List.map_cons, List.foldl_cons]
    have hstep : extractStep root st (.textEv t) = st := by
      simp [extractStep, hb]
    rw [hstep, ih]

/-- The extraction loop over a well-formed document: starting from a
closed block, it appends exactly the expected tests, advances the counter
once per runnable non-template block, and ends with the buffer closed. -/
theorem fold_extract_items (root : Str) (items : List MdItem) (st : ExtractState)
    (hb : st.buffer = none) :
    ((eventsOf items).foldl (extractStep root) st).tests
        = st.tests ++ expectedTests root st.count items ∧
    ((eventsOf items).foldl (extractStep root) st).count
        = st.count + (items.filter isRunnableNonTemplate).length ∧
    ((eventsOf items).foldl (extractStep root) st).buffer = none := by
  induction items generalizing st with
  | nil => simp [eventsOf, expectedTests, hb]
  | cons item rest ih =>
    cases item with
    | prose =>
      have hev : eventsOf (.prose :: rest) = .other :: eventsOf rest := by
        simp [eventsOf, eventsOfItem]
      rw [hev, List.foldl_cons]
      have hstep : extractStep root st .other = st := rfl
      rw [hstep]
      simpa [expectedTests, isRunnableNonTemplate] using ih st hb
    | codeBlock info texts =>
      have hev : eventsOf (.codeBlock info texts :: rest) =
          .startCodeBlock info ::
            (texts.map Event.textEv ++ (.endCodeBlock info :: eventsOf rest)) := by
        simp [eventsOf, eventsOfItem]
      rw [hev, List.foldl_cons]
      by_cases hrust : (parse_code_block_info info).is_rust = true
      · have hstart : extractStep root st (.startCodeBlock info) =
            { st with buffer := some [] } := by
          simp [extractStep, hrust]
        rw [hstart, List.foldl_append,
          fold_text_events root texts { st with buffer := some [] } [] rfl,
          List.foldl_cons]
        by_cases hold : (parse_code_block_info info).is_old_template = true
        · have hend : extractStep root
              { st with buffer := some (([] : List Str) ++ texts) } (.endCodeBlock info) =
              { st with old_template := some texts.flatten, buffer := none } := by
            simp [extractStep, hold]
          rw [hend]
          have h := ih { st with old_template := some texts.flatten, buffer := none } rfl
          simpa [expectedTests, isRunnableNonTemplate, hrust, hold] using h
        · have hend : extractStep root
              { st with buffer := some (([] : List Str) ++ texts) } (.endCodeBlock info) =
              { st with
                tests := st.tests ++
                  [⟨testName root st.count, texts, (parse_code_block_info info).ignore,
                    (parse_code_block_info info).no_run,
                    (parse_code_block_info info).should_panic,
                    (parse_code_block_info info).template⟩],
                buffer := none, count := st.count + 1 } := by
            simp [extractStep, hold]
          rw [hend]
          have h := ih { st with
            tests := st.tests ++
              [⟨testName root st.count, texts, (parse_code_block_info info).ignore,
                (parse_code_block_info info).no_run,
                (parse_code_block_info info).should_panic,
                (parse_code_block_info info).template⟩],
            buffer := none, count := st.count + 1 } rfl
          refine ⟨?_, ?_, h.2.2⟩
          · rw [h.1]
            simp [expectedTests, isRunnableNonTemplate, hrust, hold]
          · rw [h.2.1]
            simp [expectedTests, isRunnableNonTemplate, hrust, hold]
            omega
      · have hstart : extractStep root st (.startCodeBlock info) = st := by
          simp [extractStep, hrust]
        rw [hstart, List.foldl_append, fold_text_events_closed root texts st hb,
          List.foldl_cons]
        have hend : extractStep root st (.endCodeBlock info) = st := by
          simp [extractStep, hb]
        rw [hend]
        simpa [expectedTests, isRunnableNonTemplate, hrust] using ih st hb

/-- The expected tests carry the names `root_c, root_{c+1}, …` in order. -/
theorem expectedTests_names (root : Str) (items : List MdItem) (c : Nat) :
    (expectedTests root c items).map Test.name =
      (List.range' c ((items.filter isRunnableNonTemplate).length)).map (testName root) := by
  induction items generalizing c with
  | nil => simp [expectedTests]
  | cons item rest ih =>
    cases item with
    | prose => simpa [expectedTests, isRunnableNonTemplate] using ih c
    | codeBlock info texts =>
      by_cases hrust : (parse_code_block_info info).is_rust = true
      · by_cases hold : (parse_code_block_info info).is_old_template = true
        · simpa [expectedTests, isRunnableNonTemplate, hrust, hold] using ih c
        · simp [expectedTests, isRunnableNonTemplate, hrust, hold, List.range'_succ, ih (c + 1)]
      · simpa [expectedTests, isRunnableNonTemplate, hrust] using ih c

/-- The expected tests carry the runnable blocks' text fragments in
order. -/
theorem expectedTests_texts (root : Str) (items : List MdItem) (c : Nat) :
    (expectedTests root c items).map Test.text =
      (items.filter isRunnableNonTemplate).map mdTexts := by
  induction items generalizing c with
  | nil => simp [expectedTests]
  | cons item rest ih =>
    cases item with
    | prose => simpa [expectedTests, isRunnableNonTemplate] using ih c
    | codeBlock info texts =>
      by_cases hrust : (parse_code_block_info info).is_rust = true
      · by_cases hold : (parse_code_block_info info).is_old_template = true
        · simpa [expectedTests, isRunnableNonTemplate, hrust, hold] using ih c
        · simp [expectedTests, isRunnableNonTemplate, hrust, hold, mdTexts, ih (c + 1)]
      · simpa [expectedTests, isRunnableNonTemplate, hrust] using ih c

/-- C4: for every document whose event stream is the well-formed stream
of a list of markdown items with N runnable non-template sample blocks,
extraction yields exactly N Test entries, in document order, named
`<sanitized stem>_0 … <sanitized stem>_{N-1}` — the counter advances
monotonically from zero and never on legacy-template blocks. -/
theorem claim_C4_extraction_names (fs : DocFs) (path : Str) (items : List MdItem)
    (dt : DocTest) (hfs : fs path = some (eventsOf items))
    (hex : extract_tests_from_file fs path = .ok dt) :
    dt.tests.length = (items.filter isRunnableNonTemplate).length ∧
    dt.tests.map Test.name =
      (List.range ((items.filter isRunnableNonTemplate).length)).map
        (testName (sanitize_test_name (file_stem path))) ∧
    dt.tests.map Test.text = (items.filter isRunnableNonTemplate).map mdTexts := by
  have hdt : dt.tests =
      expectedTests (sanitize_test_name (file_stem path)) 0 items := by
    unfold extract_tests_from_file at hex
    rw [hfs] at hex
    cases hex
    have h := fold_extract_items (sanitize_test_name (file_stem path)) items
      ⟨[], none, none, 0⟩ rfl
    simpa using h.1
  have hlen : dt.tests.length = (items.filter isRunnableNonTemplate).length := by
    rw [hdt, ← List.length_map _ Test.name, expectedTests_names]
    simp
  refine ⟨hlen, ?_, ?_⟩
  · rw [hdt, expectedTests_names, List.range_eq_range']
  · rw [hdt, expectedTests_texts]

/-- C8 (amended): the two template fields are computed independently —
`is_old_template` is set iff the legacy marker token occurs, and
`template` is present iff an `skt-` token occurs (the last one winning) —
so an info string containing both kinds of tokens sets both, and at most
one is set only when the two kinds do not co-occur. -/
theorem claim_C8_template_fields_amended (info : Str) :
    ((parse_code_block_info info).is_old_template = true ↔
      "skeptic-template".data ∈ tokenize info) ∧
    (parse_code_block_info info).template = lastSktRef (tokenize info) := by
  constructor
  · rw [parse_code_block_info_old, fold_is_old_template]
    simp [initParseAcc]
  · rw [parse_code_block_info_template, fold_template]
    cases h : lastSktRef (tokenize info) <;> simp [orOpt, initParseAcc, h]


/-- C4 witness: the extraction-naming property at the concrete witness
document (two runnable samples around a legacy template and a non-rust
block). -/
theorem claim_C4_extraction_names_witness :
    wDocTest.tests.length = (wItems.filter isRunnableNonTemplate).length ∧
    wDocTest.tests.map Test.name =
      (List.range ((wItems.filter isRunnableNonTemplate).length)).map
        (testName (sanitize_test_name (file_stem "guide.md".data))) ∧
    wDocTest.tests.map Test.text = (wItems.filter isRunnableNonTemplate).map mdTexts :=
  claim_C4_extraction_names wDocFs "guide.md".data wItems wDocTest (by decide) (by decide)

/-- A document whose tests all resolve has a successful inner emit loop. -/
theorem emit_doc_tests_ok_of_none (out_dir : Str) (dt : DocTest) (tests : List Test)
    (h : findMissingTest dt tests = none) :
    ∃ s, emit_doc_tests out_dir dt tests = .ok s := by
  induction tests with
  | nil => exact ⟨[], rfl⟩
  | cons t rest ih =>
    cases htpl : t.template with
    | none =>
      have h' : findMissingTest dt rest = none := by
        simpa [findMissingTest, htpl] using h
      obtain ⟨s, hs⟩ := ih h'
      exact ⟨create_test_runner out_dir dt.old_template t ++ s, by
        simp [emit_doc_tests, htpl, hs]⟩
    | some nm =>
      cases hlk : dt.templates.lookup nm with
      | none => simp [findMissingTest, htpl, hlk] at h
      | some tpl =>
        have h' : findMissingTest dt rest = none := by
          simpa [findMissingTest, htpl, hlk] using h
        obtain ⟨s, hs⟩ := ih h'
        exact ⟨create_test_runner out_dir (some tpl) t ++ s, by
          simp [emit_doc_tests, htpl, hlk, hs]⟩

/-- The first unresolved template reference of a document aborts the
inner emit loop with the panic message naming it and the document. -/
theorem emit_doc_tests_error_of_missing (out_dir : Str) (dt : DocTest)
    (tests : List Test) (nm : Str) (h : findMissingTest dt tests = some nm) :
    emit_doc_tests out_dir dt tests =
      .error ("template ".data ++ nm ++ " not found for ".data ++ dt.path) := by
  induction tests with
  | nil => simp [findMissingTest] at h
  | cons t rest ih =>
    cases htpl : t.template with
    | none =>
      have h' : findMissingTest dt rest = some nm := by
        simpa [findMissingTest, htpl] using h
      simp [emit_doc_tests, htpl, ih h']
    | some nm' =>
      cases hlk : dt.templates.lookup nm' with
      | none =>
        have hnm : nm' = nm := by simpa [findMissingTest, htpl, hlk] using h
        subst hnm
        simp [emit_doc_tests, htpl, hlk]
      | some tpl =>
        have h' : findMissingTest dt rest = some nm := by
          simpa [findMissingTest, htpl, hlk] using h
        simp [emit_doc_tests, htpl, hlk, ih h']

/-- The first unresolved template reference of a suite aborts the outer
emit loop with the panic message naming it and its document. -/
theorem emit_docs_error_of_missing (out_dir : Str) (suite : List DocTest)
    (p nm : Str) (h : findMissing suite = some (p, nm)) :
    emit_docs out_dir suite =
      .error ("template ".data ++ nm ++ " not found for ".data ++ p) := by
  induction suite with
  | nil => simp [findMissing] at h
  | cons dt rest ih =>
    cases hf : findMissingTest dt dt.tests with
    | some nm' =>
      have hpn : dt.path = p ∧ nm' = nm := by
        simpa [findMissing, hf] using h
      obtain ⟨hp, hnm⟩ := hpn
      subst hp; subst hnm
      simp [emit_docs, emit_doc_tests_error_of_missing out_dir dt dt.tests nm' hf]
    | none =>
      have h' : findMissing rest = some (p, nm) := by
        simpa [findMissing, hf] using h
      obtain ⟨s, hs⟩ := emit_doc_tests_ok_of_none out_dir dt dt.tests hf
      simp [emit_docs, hs, ih h']

/-- A document's first-missing scan finds something iff some test of the
document carries a reference absent from its store. -/
theorem findMissingTest_isSome_iff (dt : DocTest) (tests : List Test) :
    (findMissingTest dt tests).isSome = true ↔
      ∃ t ∈ tests, ∃ nm, t.template = some nm ∧ dt.templates.lookup nm = none := by
  induction tests with
  | nil => simp [findMissingTest]
  | cons t rest ih =>
    cases htpl : t.template with
    | none => simp [findMissingTest, htpl, ih]
    | some nm =>
      cases hlk : dt.templates.lookup nm with
      | none =>
        simp only [findMissingTest, htpl, hlk]
        constructor
        · intro _
          exact ⟨t, List.mem_cons_self _ _, nm, htpl, hlk⟩
        · intro _
          rfl
      | some v =>
        simp only [findMissingTest, htpl, hlk]
        rw [ih]
        constructor
        · rintro ⟨x, hx, nm', h1, h2⟩
          exact ⟨x, List.mem_cons_of_mem _ hx, nm', h1, h2⟩
        · rintro ⟨x, hx, nm', h1, h2⟩
          rcases List.mem_cons.mp hx with h' | h'
          · subst h'
            rw [htpl] at h1
            injection h1 with hnm
            subst hnm
            rw [hlk] at h2
            exact Option.noConfusion h2
          · exact ⟨x, h', nm', h1, h2⟩

/-- The suite-level first-missing scan finds something iff some document
has a test with an unresolved reference. -/
theorem findMissing_isSome_iff (suite : List DocTest) :
    (findMissing suite).isSome = true ↔
      ∃ dt ∈ suite, ∃ t ∈ dt.tests, ∃ nm, t.template = some nm ∧
        dt.templates.lookup nm = none := by
  induction suite with
  | nil => simp [findMissing]
  | cons dt rest ih =>
    cases hf : findMissingTest dt dt.tests with
    | some nm =>
      simp only [findMissing, hf]
      constructor
      · intro _
        have hs : (findMissingTest dt dt.tests).isSome = true := by simp [hf]
        obtain ⟨t, ht, nm', h1, h2⟩ := (findMissingTest_isSome_iff dt dt.tests).mp hs
        exact ⟨dt, List.mem_cons_self _ _, t, ht, nm', h1, h2⟩
      · intro _
        rfl
    | none =>
      have hno : ¬ ∃ t ∈ dt.tests, ∃ nm, t.template = some nm ∧
          dt.templates.lookup nm = none := by
        intro hex
        have := (findMissingTest_isSome_iff dt dt.tests).mpr hex
        rw [hf] at this
        simp at this
      simp only [findMissing, hf]
      rw [ih]
      constructor
      · rintro ⟨d, hd, rest'⟩
        exact ⟨d, List.mem_cons_of_mem _ hd, rest'⟩
      · rintro ⟨d, hd, rest'⟩
        rcases List.mem_cons.mp hd with h' | h'
        · subst h'
          exact absurd rest' hno
        · exact ⟨d, h', rest'⟩

/-- C6: a test carrying a template reference absent from its document's
store exists iff the first-missing scan finds one, and whenever the scan
finds the pair (document path, template name), generation aborts: the
emit pass returns the panic message naming both, and the output file
system is untouched (the artifact write is never reached). -/
theorem claim_C6_missing_template_aborts :
    (∀ suite : List DocTest,
      (∃ dt ∈ suite, ∃ t ∈ dt.tests, ∃ nm, t.template = some nm ∧
          dt.templates.lookup nm = none) ↔ (findMissing suite).isSome = true) ∧
    (∀ (fs : OutFs) (out_dir out_file p nm : Str) (suite : List DocTest),
      findMissing suite = some (p, nm) →
      emit_tests fs out_dir out_file suite =
        (fs, some ("template ".data ++ nm ++ " not found for ".data ++ p))) := by
  constructor
  · intro suite
    exact (findMissing_isSome_iff suite).symm
  · intro fs out_dir out_file p nm suite h
    have hdocs := emit_docs_error_of_missing out_dir suite p nm h
    simp [emit_tests, emit_content, hdocs]

/-- C6 witness: a one-document suite whose only test references the
absent template `tpl` makes generation abort with the message naming
`tpl` and `doc.md`, leaving the (empty) output file system untouched. -/
theorem claim_C6_missing_template_aborts_witness :
    emit_tests ⟨[], []⟩ "od".data "of".data
        [⟨"doc.md".data, none,
          [⟨"doc_0".data, ["x".data], false, false, false, some "tpl".data⟩], []⟩] =
      (⟨[], []⟩, some ("template ".data ++ "tpl".data ++ " not found for ".data ++
        "doc.md".data)) :=
  claim_C6_missing_template_aborts.2 ⟨[], []⟩ "od".data "of".data "doc.md".data
    "tpl".data _ (by decide)

/-- A successfully extracted document keeps its path and reads its
templates from the sibling `.skt.md` file. -/
theorem extract_tests_from_file_fields (fs : DocFs) (d : Str) (dt : DocTest)
    (h : extract_tests_from_file fs d = .ok dt) :
    dt.path = d ∧ dt.templates = load_templates fs d := by
  unfold extract_tests_from_file at h
  cases hfs : fs d with
  | none => rw [hfs] at h; cases h
  | some evs =>
    rw [hfs] at h
    cases h
    exact ⟨rfl, rfl⟩

/-- A successfully extracted suite lists exactly the configured documents
in order, each with the templates of its sibling file. -/
theorem extract_tests_map (fs : DocFs) (ds : List Str) (suite : List DocTest)
    (h : extract_tests fs ds = .ok suite) :
    suite.map DocTest.path = ds ∧
    suite.map DocTest.templates = ds.map (fun d => load_templates fs d) := by
  induction ds generalizing suite with
  | nil =>
    have : suite = [] := by
      have h' : Except.ok (ε := Unit) [] = .ok suite := h
      cases h'
      rfl
    subst this
    simp
  | cons d rest ih =>
    unfold extract_tests at h
    cases hdt : extract_tests_from_file fs d with
    | error e => rw [hdt] at h; cases h
    | ok dt =>
      rw [hdt] at h
      cases hr : extract_tests fs rest with
      | error e => rw [hr] at h; cases h
      | ok r =>
        rw [hr] at h
        cases h
        obtain ⟨hp, htpl⟩ := extract_tests_from_file_fields fs d dt hdt
        obtain ⟨hp', htpl'⟩ := ih r hr
        simp [hp, htpl, hp', htpl']

/-- C10: entries ending in `.skt.md` are dropped before any processing —
the rerun directives are generated from the filtered list only, and a
successfully extracted suite's documents are exactly the filtered
entries, in order, while each remaining document's template store is
still read from its `.skt.md` sibling. -/
theorem claim_C10_skt_entries_filtered (fs : DocFs) (out_dir : Str) (docs : List Str)
    (suite : List DocTest)
    (hok : (generate_doc_tests fs out_dir docs).suite = .ok suite) :
    (generate_doc_tests fs out_dir docs).directives =
      ((docs.filter (fun d => !(".skt.md".data.isSuffixOf d))).map (fun d =>
        ["cargo:rerun-if-changed=".data ++ d,
         "cargo:rerun-if-changed=".data ++ d ++ ".skt.md".data])).flatten ∧
    suite.map DocTest.path = docs.filter (fun d => !(".skt.md".data.isSuffixOf d)) ∧
    suite.map DocTest.templates =
      (docs.filter (fun d => !(".skt.md".data.isSuffixOf d))).map
        (fun d => load_templates fs d) := by
  have hfil : ∀ (ds : List Str) (s : List DocTest),
      (generateFiltered fs out_dir ds).suite = .ok s →
      (generateFiltered fs out_dir ds).directives =
        (ds.map (fun d =>
          ["cargo:rerun-if-changed=".data ++ d,
           "cargo:rerun-if-changed=".data ++ d ++ ".skt.md".data])).flatten ∧
      s.map DocTest.path = ds ∧
      s.map DocTest.templates = ds.map (fun d => load_templates fs d) := by
    intro ds s hs
    cases hx : extract_tests fs ds with
    | error e =>
      unfold generateFiltered at hs
      rw [hx] at hs
      cases hs
    | ok r =>
      unfold generateFiltered at hs
      rw [hx] at hs
      have hr : r = s := by
        have h' : Except.ok (ε := Unit) r = .ok s := hs
        cases h'
        rfl
      subst hr
      obtain ⟨h1, h2⟩ := extract_tests_map fs ds r hx
      refine ⟨?_, h1, h2⟩
      unfold generateFiltered
      rw [hx]
  cases docs with
  | nil =>
    have : suite = [] := by
      have h' : Except.ok (ε := Unit) [] = .ok suite := hok
      cases h'
      rfl
    subst this
    simp [generate_doc_tests]
  | cons d ds =>
    have hgen : generate_doc_tests fs out_dir (d :: ds) =
        generateFiltered fs out_dir
          ((d :: ds).filter (fun x => !(".skt.md".data.isSuffixOf x))) := by
      simp [generate_doc_tests]
    rw [hgen] at hok ⊢
    exact hfil _ suite hok

/-- C10 witness: the filtering property at a concrete input list holding
one document and one `.skt.md` entry. -/
theorem claim_C10_skt_entries_filtered_witness :
    (generate_doc_tests wFilterFs "od".data ["a.md".data, "notes.skt.md".data]).directives =
      ((["a.md".data, "notes.skt.md".data].filter
          (fun d => !(".skt.md".data.isSuffixOf d))).map (fun d =>
        ["cargo:rerun-if-changed=".data ++ d,
         "cargo:rerun-if-changed=".data ++ d ++ ".skt.md".data])).flatten ∧
    [(⟨"a.md".data, none, [], []⟩ : DocTest)].map DocTest.path =
      ["a.md".data, "notes.skt.md".data].filter
        (fun d => !(".skt.md".data.isSuffixOf d)) ∧
    [(⟨"a.md".data, none, [], []⟩ : DocTest)].map DocTest.templates =
      (["a.md".data, "notes.skt.md".data].filter
          (fun d => !(".skt.md".data.isSuffixOf d))).map
        (fun d => load_templates wFilterFs d) :=
  claim_C10_skt_entries_filtered wFilterFs "od".data
    ["a.md".data, "notes.skt.md".data] [⟨"a.md".data, none, [], []⟩] (by decide)

/-- Boolean character predicates can be checked on the ASCII range by
enumeration. -/
theorem ascii_char_cases (P : Char → Bool)
    (hP : ∀ v : Fin 128, P (Char.ofNat v.val) = true) (c : Char)
    (hc : c.toNat < 128) : P c = true := by
  have h := hP ⟨c.toNat, hc⟩
  rwa [Char.ofNat_toNat] at h

/-- Decimal digits render to ASCII digit characters. -/
theorem digitChar_digit (r : Nat) (h : r < 10) :
    isAsciiDigitChar (digitChar r) = true := by
  interval_cases r <;> decide

/-- Every character the decimal renderer pushes is an ASCII digit. -/
theorem natDecimalAux_all_digits (fuel : Nat) :
    ∀ (n : Nat) (acc : Str), (∀ c ∈ acc, isAsciiDigitChar c = true) →
      ∀ c ∈ natDecimalAux fuel n acc, isAsciiDigitChar c = true := by
  induction fuel with
  | zero =>
    intro n acc hacc
    simpa [natDecimalAux] using hacc
  | succ fuel ih =>
    intro n acc hacc
    unfold natDecimalAux
    split_ifs with h
    · exact hacc
    · apply ih
      intro c hc
      rcases List.mem_cons.mp hc with h' | h'
      · subst h'
        exact digitChar_digit _ (Nat.mod_lt _ (by norm_num))
      · exact hacc c h'

/-- The decimal renderer never shortens its accumulator. -/
theorem natDecimalAux_length (fuel : Nat) :
    ∀ (n : Nat) (acc : Str), acc.length ≤ (natDecimalAux fuel n acc).length := by
  induction fuel with
  | zero =>
    intro n acc
    simp [natDecimalAux]
  | succ fuel ih =>
    intro n acc
    unfold natDecimalAux
    split_ifs with h
    · exact le_refl _
    · exact le_trans (by simp) (ih (n / 10) (digitChar (n % 10) :: acc))

/-- Decimal renderings consist of ASCII digits. -/
theorem natDecimal_digits (n : Nat) :
    ∀ c ∈ natDecimal n, isAsciiDigitChar c = true := by
  unfold natDecimal
  split_ifs with h
  · intro c hc
    simp at hc
    subst hc
    decide
  · exact natDecimalAux_all_digits n n [] (by simp)

/-- Decimal renderings are nonempty. -/
theorem natDecimal_ne_nil (n : Nat) : natDecimal n ≠ [] := by
  unfold natDecimal
  split_ifs with h
  · simp
  · cases n with
    | zero => exact absurd rfl h
    | succ m =>
      unfold natDecimalAux
      rw [if_neg (Nat.succ_ne_zero m)]
      intro hnil
      have hlen := natDecimalAux_length m ((m + 1) / 10) [digitChar ((m + 1) % 10)]
      rw [hnil] at hlen
      simp at hlen

/-- An ASCII character sanitizes into the `[a-z0-9_]` class. -/
theorem sanitize_char_ascii (c : Char) (hc : c.toNat < 128) :
    isLowerNumUnd
      (if isRustAlphanumeric (toAsciiLowerChar c) then toAsciiLowerChar c else '_') =
      true := by
  apply ascii_char_cases
    (fun c => isLowerNumUnd
      (if isRustAlphanumeric (toAsciiLowerChar c) then toAsciiLowerChar c else '_'))
    (by decide) c hc

/-- Sanitizing an all-ASCII name yields only `[a-z0-9_]` characters. -/
theorem sanitize_all_class (s : Str) (h : ∀ c ∈ s, c.toNat < 128) :
    ∀ c ∈ sanitize_test_name s, isLowerNumUnd c = true := by
  intro c hc
  unfold sanitize_test_name to_lowercase at hc
  rw [List.map_map] at hc
  obtain ⟨a, ha, rfl⟩ := List.mem_map.mp hc
  simpa [Function.comp] using sanitize_char_ascii a (h a ha)

/-- `takeWhile` passes over a block of satisfying characters. -/
theorem takeWhile_append_of_all (p : Char → Bool) (l1 l2 : Str)
    (h : ∀ c ∈ l1, p c = true) :
    (l1 ++ l2).takeWhile p = l1 ++ l2.takeWhile p := by
  induction l1 with
  | nil => simp
  | cons a l ih =>
    have ha : p a = true := h a (List.mem_cons_self _ _)
    simp [List.takeWhile_cons, ha,
      ih (fun c hc => h c (List.mem_cons_of_mem _ hc))]

/-- A name made of a nonempty `[a-z0-9_]` block, an underscore and a
nonempty digit block matches the test-name pattern. -/
theorem matchesTestNamePattern_of (root digits : Str)
    (hroot : root ≠ []) (hrcls : ∀ c ∈ root, isLowerNumUnd c = true)
    (hdig : digits ≠ []) (hdigall : ∀ c ∈ digits, isAsciiDigitChar c = true) :
    matchesTestNamePattern (root ++ '_' :: digits) = true := by
  unfold matchesTestNamePattern
  have hrev : (root ++ '_' :: digits).reverse = digits.reverse ++ '_' :: root.reverse := by
    simp
  rw [hrev]
  have htw : (digits.reverse ++ '_' :: root.reverse).takeWhile isAsciiDigitChar =
      digits.reverse := by
    rw [takeWhile_append_of_all _ _ _
      (fun c hc => hdigall c (List.mem_reverse.mp hc))]
    have hu : ('_' :: root.reverse).takeWhile isAsciiDigitChar = [] := by
      rw [List.takeWhile_cons]
      have hnd : isAsciiDigitChar '_' = false := by decide
      simp [hnd]
    rw [hu, List.append_nil]
  rw [htw]
  have hdrop : (digits.reverse ++ '_' :: root.reverse).drop digits.reverse.length =
      '_' :: root.reverse := List.drop_left _ _
  rw [hdrop]
  have h1 : digits.reverse.isEmpty = false := by
    cases hd : digits with
    | nil => exact absurd hd hdig
    | cons a l => simp
  have h2 : root.reverse.isEmpty = false := by
    cases hd : root with
    | nil => exact absurd hd hroot
    | cons a l => simp
  simp only [h1, List.head?_cons, List.drop_succ_cons, List.drop_zero, h2,
    Bool.not_false, Bool.true_and, decide_eq_true_eq, decide_True]
  rw [List.all_eq_true]
  intro c hc
  exact hrcls c (List.mem_reverse.mp hc)

/-- C5 counterexample: the base name `É` (a non-ASCII letter, hence
Unicode-alphanumeric) survives sanitization unchanged — it is neither
replaced by `_` nor case-folded — so the generated name `É_0` does not
match `^[a-z0-9_]+_[0-9]+$`, refuting both the case-folds-all-letters
clause and the pattern invariant. -/
theorem claim_C5_counterexample :
    sanitize_test_name "É".data = "É".data ∧
    to_lowercase "É".data = "É".data ∧
    matchesTestNamePattern (testName (sanitize_test_name "É".data) 0) = false := by
  decide

/-- C5 (amended): sanitization ASCII-lowercases letters and replaces
every character that is not (Unicode-)alphanumeric by `_`; for every
nonempty all-ASCII base name, every generated test name matches
`^[a-z0-9_]+_[0-9]+$`, and `My-Doc.2` yields the root `my_doc_2`.
Non-ASCII alphanumeric characters pass through unchanged and unfolded,
so the pattern can fail for non-ASCII base names (see the
counterexample). -/
theorem claim_C5_sanitize_amended :
    (∀ (s : Str) (n : Nat), s ≠ [] → (∀ c ∈ s, c.toNat < 128) →
      matchesTestNamePattern (testName (sanitize_test_name s) n) = true) ∧
    sanitize_test_name "My-Doc.2".data = "my_doc_2".data := by
  refine ⟨fun s n hne hascii => ?_, by decide⟩
  unfold testName
  apply matchesTestNamePattern_of
  · intro hnil
    apply hne
    have hlen : (sanitize_test_name s).length = s.length := by
      simp [sanitize_test_name, to_lowercase]
    rw [hnil] at hlen
    exact List.eq_nil_of_length_eq_zero hlen.symm
  · exact sanitize_all_class s hascii
  · exact natDecimal_ne_nil n
  · exact natDecimal_digits n

/-- C5 witness: the amended pattern invariant at the concrete base name
`My-Doc.2` and counter 0. -/
theorem claim_C5_sanitize_amended_witness :
    matchesTestNamePattern (testName (sanitize_test_name "My-Doc.2".data) 0) = true :=
  claim_C5_sanitize_amended.1 "My-Doc.2".data 0 (by decide) (by decide)
